import Mathlib

/-!
Verification of the quantitative momentum trading system's core pipeline:
the rebalance order calculator (`engine/execution_manager.py`), the
portfolio constructor (`engine/portfolio_constructor.py`) and the simulated
portfolio state (`engine/simulated_portfolio_manager.py`).

Python dictionaries with string keys are embedded as association lists
`List (String × _)` (or, for read-only price mappings, as functions
`String → Option ℚ`); floats are embedded as rationals; `math.floor` is
`Int.floor`.
-/

namespace MomentumTrader

/-- An order dictionary as built by `calculate_rebalance_orders`:
`{'action': ..., 'ticker': ..., 'quantity': ...}` (the constant
`orderType` field carries no information and is omitted). -/
structure RebalanceOrder where
  action : String
  ticker : String
  quantity : Int
deriving DecidableEq, Repr

/-- `d.get(k)` on a string-keyed dictionary embedded as an association list. -/
def dictGet (l : List (String × Int)) (k : String) : Option Int :=
  (l.find? (fun p => p.1 == k)).map Prod.snd

/-- Step 1a of `calculate_rebalance_orders` (execution_manager.py lines 59-71):
sell, at full current quantity, every held long position whose ticker is no
longer in the target long list.  `longs_to_sell = current_holdings ∩ {t : q_t > 0} - target_longs`. -/
def longsToSellOrders (target_longs : List String)
    (current_positions : List (String × Int)) : List RebalanceOrder :=
  (current_positions.filter (fun p => decide (0 < p.2 ∧ p.1 ∉ target_longs))).map
    (fun p => { action := "SELL", ticker := p.1, quantity := p.2 })

/-- Step 1b (lines 73-85): buy back, at full absolute quantity, every held
short position whose ticker is no longer in the target short list. -/
def shortsToCoverOrders (target_shorts : List String)
    (current_positions : List (String × Int)) : List RebalanceOrder :=
  (current_positions.filter (fun p => decide (p.2 < 0 ∧ p.1 ∉ target_shorts))).map
    (fun p => { action := "BUY", ticker := p.1, quantity := |p.2| })

/-- Step 2a (lines 100-113): open a new long for every target long not
currently held, sized `math.floor(position_size_per_stock / price)`, only
when a price is available and positive (`if price and price > 0`) and the
floored quantity is positive. -/
def newLongOrders (target_longs : List String) (current_holdings : List String)
    (position_size_per_stock : ℚ) (current_prices : String → Option ℚ) :
    List RebalanceOrder :=
  (target_longs.filter (fun t => decide (t ∉ current_holdings))).filterMap
    (fun t =>
      (current_prices t).bind (fun price =>
        if 0 < price then
          if 0 < ⌊position_size_per_stock / price⌋ then
            some { action := "BUY", ticker := t,
                   quantity := ⌊position_size_per_stock / price⌋ }
          else none
        else none))

/-- Step 2b (lines 115-128): open a new short for every target short not
currently held; the emitted action string is `'SELL'` (not `'SSHORT'`). -/
def newShortOrders (target_shorts : List String) (current_holdings : List String)
    (position_size_per_stock : ℚ) (current_prices : String → Option ℚ) :
    List RebalanceOrder :=
  (target_shorts.filter (fun t => decide (t ∉ current_holdings))).filterMap
    (fun t =>
      (current_prices t).bind (fun price =>
        if 0 < price then
          if 0 < ⌊position_size_per_stock / price⌋ then
            some { action := "SELL", ticker := t,
                   quantity := ⌊position_size_per_stock / price⌋ }
          else none
        else none))

/-- `ExecutionManager.calculate_rebalance_orders` (execution_manager.py lines
36-130).  `target_longs`/`target_shorts` are the Python `set(...)` of the
input lists (embedded as `List.dedup`); `total_target_positions` is the sum
of the two set sizes; when it is zero the function returns after Step 1;
otherwise `position_size_per_stock = total_portfolio_value / total_target_positions`
and the Step 2 orders are appended. -/
def calculate_rebalance_orders (longs shorts : List String)
    (current_positions : List (String × Int))
    (total_portfolio_value : ℚ)
    (current_prices : String → Option ℚ) : List RebalanceOrder :=
  let target_longs := longs.dedup
  let target_shorts := shorts.dedup
  let sells := longsToSellOrders target_longs current_positions
  let covers := shortsToCoverOrders target_shorts current_positions
  let total_target_positions := target_longs.length + target_shorts.length
  if total_target_positions = 0 then sells ++ covers
  else
    let position_size_per_stock : ℚ :=
      total_portfolio_value / (total_target_positions : ℚ)
    let current_holdings := current_positions.map Prod.fst
    sells ++ covers ++
      newLongOrders target_longs current_holdings position_size_per_stock current_prices ++
      newShortOrders target_shorts current_holdings position_size_per_stock current_prices

/-- The Position Book that holds exactly the target quantities the calculator
would size for each priced target ticker: `+⌊position_size / price⌋` for each
target long, the negation for each target short, a ticker being present only
when its price is available and positive and the floored quantity is nonzero
(a quantity-0 ticker is never retained in a Position Book). -/
def targetQuantityBook (longs shorts : List String)
    (total_portfolio_value : ℚ)
    (current_prices : String → Option ℚ) : List (String × Int) :=
  let total_target_positions := longs.dedup.length + shorts.dedup.length
  let position_size_per_stock : ℚ :=
    total_portfolio_value / (total_target_positions : ℚ)
  (longs.dedup.filterMap (fun t =>
    (current_prices t).bind (fun price =>
      if 0 < price then
        if 0 < ⌊position_size_per_stock / price⌋ then
          some (t, ⌊position_size_per_stock / price⌋)
        else none
      else none))) ++
  (shorts.dedup.filterMap (fun t =>
    (current_prices t).bind (fun price =>
      if 0 < price then
        if 0 < ⌊position_size_per_stock / price⌋ then
          some (t, -⌊position_size_per_stock / price⌋)
        else none
      else none)))

/-! ### Portfolio constructor (`engine/portfolio_constructor.py`) -/

/-- A row of the `company_info` table: a Universe Entry with ticker, sector
and nullable market capitalization. -/
structure UniverseEntry where
  ticker : String
  sector : String
  marketCap : Option ℚ
deriving DecidableEq, Repr

/-- `Series.quantile` with pandas' default linear interpolation: on the
sorted values `x_0 ≤ … ≤ x_{m-1}`, position `pos = q·(m-1)`, the result is
`x_⌊pos⌋ + (pos - ⌊pos⌋)·(x_{⌊pos⌋+1} - x_⌊pos⌋)`. -/
def quantileLinear (xs : List ℚ) (q : ℚ) : ℚ :=
  let sorted := xs.insertionSort (· ≤ ·)
  let m := sorted.length
  if m = 0 then 0
  else
    let pos : ℚ := q * ((m : ℚ) - 1)
    let i : ℕ := (⌊pos⌋).toNat
    let lower := sorted.getD i 0
    let upper := sorted.getD (min (i + 1) (m - 1)) 0
    lower + (pos - ⌊pos⌋) * (upper - lower)

/-- Liquidity filter of `_apply_universe_filters` (portfolio_constructor.py
lines 51-57): drop rows with missing `marketCap`, compute the market-cap
quantile of the remaining rows, keep rows with `marketCap >= cutoff`. -/
def filterLiquidity (entries : List UniverseEntry) (percentile : ℚ) :
    List UniverseEntry :=
  let known := entries.filter (fun e => e.marketCap.isSome)
  let liquidity_cutoff :=
    quantileLinear (known.filterMap (fun e => e.marketCap)) percentile
  known.filter (fun e => decide (liquidity_cutoff ≤ e.marketCap.getD 0))

/-- Sector filter of `_apply_universe_filters` (lines 59-63): drop rows whose
sector is in the excluded list (`~info_df['sector'].isin(...)`). -/
def filterSectors (entries : List UniverseEntry) (excludedSectors : List String) :
    List UniverseEntry :=
  entries.filter (fun e => decide (e.sector ∉ excludedSectors))

/-- Liquidity filter with the cutoff supplied as a fixed threshold instead of
being recomputed as a quantile of the current population; used to state the
amended order-independence property. -/
def filterLiquidityAt (entries : List UniverseEntry) (cutoff : ℚ) :
    List UniverseEntry :=
  (entries.filter (fun e => e.marketCap.isSome)).filter
    (fun e => decide (cutoff ≤ e.marketCap.getD 0))

/-- `Series.pct_change(periods)` on a resampled price series: entry `i` is
`s[i] / s[i - periods] - 1` when index `i - periods` is in range, and
missing (NaN) otherwise.  `periods` may be zero or negative, in which case
pandas still computes the (degenerate) ratio rather than raising. -/
def pct_change (periods : ℤ) (s : List ℚ) : List (Option ℚ) :=
  (List.range s.length).map (fun (i : ℕ) =>
    let j : ℤ := (i : ℤ) - periods
    if 0 ≤ j ∧ j < (s.length : ℤ) then
      some (s.getD i 0 / s.getD j.toNat 0 - 1)
    else none)

/-- `Series.shift(g)` for a nonnegative lag `g`: entry `i` of the result is
entry `i - g` of the input, the first `g` entries becoming missing. -/
def shiftForward (g : ℕ) (s : List (Option ℚ)) : List (Option ℚ) :=
  (List.range s.length).map (fun i => if g ≤ i then s.getD (i - g) none else none)

/-- `_calculate_12_2_momentum` (portfolio_constructor.py lines 68-80) for a
single ticker's period-end resampled price series:
`monthly_prices.pct_change(periods=LOOKBACK - LAG).shift(LAG)` followed by
`.iloc[-1]`, i.e. the most recent value; `none` means NaN (the ticker is
then dropped by `dropna`). -/
def momentum_latest (lookback lag : ℕ) (monthly_prices : List ℚ) : Option ℚ :=
  ((shiftForward lag (pct_change ((lookback : ℤ) - (lag : ℤ)) monthly_prices)).getLast?).join

/-- The per-ticker momentum column after `dropna(subset=['Momentum'])`:
tickers whose latest momentum is NaN are removed, the others keep their
single most recent value. -/
def momentumTable (lookback lag : ℕ)
    (priceSeries : List (String × List ℚ)) : List (String × ℚ) :=
  priceSeries.filterMap (fun p => (momentum_latest lookback lag p.2).map (fun m => (p.1, m)))

/-- Python `int(x)` applied to a nonnegative-or-negative float: truncation
toward zero. -/
def pyInt (q : ℚ) : ℤ := if q < 0 then -⌊-q⌋ else ⌊q⌋

/-- Cutoff sizing of `generate_target_portfolio` (portfolio_constructor.py
lines 172-175): `cutoff_n = int(len(report_df) * TOP_PERCENTILE_CUTOFF)`,
forced up to 1 when it truncates to 0 and the report is non-empty. -/
def cutoffN (numSurvivors : ℕ) (cutoffFraction : ℚ) : ℤ :=
  let k := pyInt ((numSurvivors : ℚ) * cutoffFraction)
  if k = 0 ∧ 0 < numSurvivors then 1 else k

/-- Ranking and selection portion of `generate_target_portfolio` (lines
163-189), applied to the per-ticker momentum table: rank by momentum
descending with ties broken by first-seen order (`method='first'`, a stable
descending sort), then `longs = report.head(cutoff_n)` and
`shorts = report.tail(cutoff_n)`. -/
def generate_target_portfolio (report : List (String × ℚ))
    (cutoffFraction : ℚ) : List String × List String :=
  let sorted := report.insertionSort (fun a b => b.2 ≤ a.2)
  let n := (cutoffN sorted.length cutoffFraction).toNat
  let tickers := sorted.map Prod.fst
  (tickers.take n, tickers.drop (tickers.length - n))

/-! ### Simulated portfolio state (`engine/simulated_portfolio_manager.py`) -/

/-- The mutable state of `SimulatedPortfolioManager`: cash and the ticker →
signed-quantity position dictionary. -/
structure SimulatedPortfolio where
  cash : ℚ
  positions : List (String × Int)
deriving DecidableEq, Repr

/-- `d[k] = v` on a dictionary embedded as an association list: replace the
entry in place when the key is present, append otherwise (Python dicts keep
insertion order and update in place). -/
def dictSet (l : List (String × Int)) (k : String) (v : Int) :
    List (String × Int) :=
  if l.any (fun p => p.1 == k) then
    l.map (fun p => if p.1 == k then (k, v) else p)
  else l ++ [(k, v)]

/-- `del d[k]` on a dictionary embedded as an association list. -/
def dictDel (l : List (String × Int)) (k : String) : List (String × Int) :=
  l.filter (fun p => !(p.1 == k))

/-- One iteration of the order loop in `simulate_trades`
(simulated_portfolio_manager.py lines 110-134): skip the order when no
execution price is available; otherwise BUY decreases cash by
`quantity * price` and increases the position, SELL and SSHORT increase cash
and decrease the position; finally any ticker whose stored quantity is
exactly 0 is deleted from the dictionary. -/
def applyOrder (prices : String → Option ℚ) (st : SimulatedPortfolio)
    (o : RebalanceOrder) : SimulatedPortfolio :=
  (prices o.ticker).elim st (fun price =>
    let trade_value : ℚ := (o.quantity : ℚ) * price
    let st' : SimulatedPortfolio :=
      if o.action = "BUY" then
        { cash := st.cash - trade_value,
          positions := dictSet st.positions o.ticker
            ((dictGet st.positions o.ticker).getD 0 + o.quantity) }
      else if o.action = "SELL" then
        { cash := st.cash + trade_value,
          positions := dictSet st.positions o.ticker
            ((dictGet st.positions o.ticker).getD 0 - o.quantity) }
      else if o.action = "SSHORT" then
        { cash := st.cash + trade_value,
          positions := dictSet st.positions o.ticker
            ((dictGet st.positions o.ticker).getD 0 - o.quantity) }
      else st
    if dictGet st'.positions o.ticker = some 0 then
      { st' with positions := dictDel st'.positions o.ticker }
    else st')

/-- `SimulatedPortfolioManager.simulate_trades` (lines 101-136): fold the
order loop over the order list. -/
def simulate_trades (orders : List RebalanceOrder)
    (prices : String → Option ℚ) (st : SimulatedPortfolio) : SimulatedPortfolio :=
  orders.foldl (applyOrder prices) st

/-- Variant of the order loop with the `'SSHORT'` branch removed, used to
state that this branch is unreachable on orders produced by
`calculate_rebalance_orders`. -/
def applyOrderNoSshortBranch (prices : String → Option ℚ)
    (st : SimulatedPortfolio) (o : RebalanceOrder) : SimulatedPortfolio :=
  (prices o.ticker).elim st (fun price =>
    let trade_value : ℚ := (o.quantity : ℚ) * price
    let st' : SimulatedPortfolio :=
      if o.action = "BUY" then
        { cash := st.cash - trade_value,
          positions := dictSet st.positions o.ticker
            ((dictGet st.positions o.ticker).getD 0 + o.quantity) }
      else if o.action = "SELL" then
        { cash := st.cash + trade_value,
          positions := dictSet st.positions o.ticker
            ((dictGet st.positions o.ticker).getD 0 - o.quantity) }
      else st
    if dictGet st'.positions o.ticker = some 0 then
      { st' with positions := dictDel st'.positions o.ticker }
    else st')

/-! ### Spec-side model of the Rebalance Calculator's diff semantics

The specification (§4.5) describes the Rebalance Calculator as computing
per-ticker target quantities and diffing them against current positions.
The definitions below follow the spec's words and are compared against
`calculate_rebalance_orders`, which is translated from the source. -/

/-- Per-ticker target quantity following the spec's words: for a long,
`floor(dollarsPerSlot / price)`; for a short, the negation; `0` when the
price is missing or non-positive or the ticker is not targeted. -/
def specDiffTargetQty (longs shorts : List String)
    (total_portfolio_value : ℚ) (prices : String → Option ℚ)
    (t : String) : ℤ :=
  let total_positions := longs.dedup.length + shorts.dedup.length
  let dollarsPerSlot : ℚ :=
    if total_positions = 0 then 0
    else total_portfolio_value / (total_positions : ℚ)
  (prices t).elim 0 (fun p =>
    if 0 < p then
      if t ∈ longs then ⌊dollarsPerSlot / p⌋
      else if t ∈ shorts then -⌊dollarsPerSlot / p⌋
      else 0
    else 0)

/-- The spec's per-ticker order requirement (§4.5 step 5): over the union of
the current-position tickers and targeted tickers, no order when
`current = target`, otherwise exactly an order of quantity `|target -
current|` whose action is BUY when the difference is positive, SELL when
the current quantity is positive, and SHORT-SELL otherwise. -/
def specDiffRequirement (longs shorts : List String)
    (current_positions : List (String × Int))
    (total_portfolio_value : ℚ) (prices : String → Option ℚ)
    (orders : List RebalanceOrder) : Prop :=
  ∀ t ∈ current_positions.map Prod.fst ++ longs ++ shorts,
    ((dictGet current_positions t).getD 0 =
        specDiffTargetQty longs shorts total_portfolio_value prices t →
      ∀ o ∈ orders, o.ticker ≠ t) ∧
    ((dictGet current_positions t).getD 0 ≠
        specDiffTargetQty longs shorts total_portfolio_value prices t →
      ∃ o ∈ orders, o.ticker = t ∧
        o.quantity = |specDiffTargetQty longs shorts total_portfolio_value prices t -
          (dictGet current_positions t).getD 0| ∧
        o.action = (if 0 < specDiffTargetQty longs shorts total_portfolio_value prices t -
              (dictGet current_positions t).getD 0 then "BUY"
            else if 0 < (dictGet current_positions t).getD 0 then "SELL"
            else "SSHORT"))

/-! ### Membership characterization of the rebalance calculator -/

theorem mem_longsToSellOrders {tl : List String} {pos : List (String × Int)}
    {o : RebalanceOrder} :
    o ∈ longsToSellOrders tl pos ↔
      ∃ t q, (t, q) ∈ pos ∧ 0 < q ∧ t ∉ tl ∧
        o = { action := "SELL", ticker := t, quantity := q } := by
  simp only [longsToSellOrders, List.mem_map, List.mem_filter,
    decide_eq_true_eq]
  constructor
  · rintro ⟨⟨t, q⟩, ⟨hmem, hq, htl⟩, rfl⟩
    exact ⟨t, q, hmem, hq, htl, rfl⟩
  · rintro ⟨t, q, hmem, hq, htl, rfl⟩
    exact ⟨⟨t, q⟩, ⟨hmem, hq, htl⟩, rfl⟩

theorem mem_shortsToCoverOrders {ts : List String} {pos : List (String × Int)}
    {o : RebalanceOrder} :
    o ∈ shortsToCoverOrders ts pos ↔
      ∃ t q, (t, q) ∈ pos ∧ q < 0 ∧ t ∉ ts ∧
        o = { action := "BUY", ticker := t, quantity := |q| } := by
  simp only [shortsToCoverOrders, List.mem_map, List.mem_filter,
    decide_eq_true_eq]
  constructor
  · rintro ⟨⟨t, q⟩, ⟨hmem, hq, hts⟩, rfl⟩
    exact ⟨t, q, hmem, hq, hts, rfl⟩
  · rintro ⟨t, q, hmem, hq, hts, rfl⟩
    exact ⟨⟨t, q⟩, ⟨hmem, hq, hts⟩, rfl⟩

theorem mem_newLongOrders {tl held : List String} {psize : ℚ}
    {pr : String → Option ℚ} {o : RebalanceOrder} :
    o ∈ newLongOrders tl held psize pr ↔
      ∃ t p, t ∈ tl ∧ t ∉ held ∧ pr t = some p ∧ 0 < p ∧
        0 < ⌊psize / p⌋ ∧
        o = { action := "BUY", ticker := t, quantity := ⌊psize / p⌋ } := by
  simp only [newLongOrders, List.mem_filterMap, List.mem_filter,
    decide_eq_true_eq]
  constructor
  · rintro ⟨t, ⟨htl, hheld⟩, hf⟩
    cases hpr : pr t with
    | none => rw [hpr] at hf; exact absurd hf (by simp)
    | some p =>
      rw [hpr, Option.some_bind] at hf
      split_ifs at hf with hp hq
      · exact ⟨t, p, htl, hheld, hpr, hp, hq, (Option.some_inj.mp hf).symm⟩
  · rintro ⟨t, p, htl, hheld, hpr, hp, hq, rfl⟩
    refine ⟨t, ⟨htl, hheld⟩, ?_⟩
    rw [hpr, Option.some_bind, if_pos hp, if_pos hq]

theorem mem_newShortOrders {ts held : List String} {psize : ℚ}
    {pr : String → Option ℚ} {o : RebalanceOrder} :
    o ∈ newShortOrders ts held psize pr ↔
      ∃ t p, t ∈ ts ∧ t ∉ held ∧ pr t = some p ∧ 0 < p ∧
        0 < ⌊psize / p⌋ ∧
        o = { action := "SELL", ticker := t, quantity := ⌊psize / p⌋ } := by
  simp only [newShortOrders, List.mem_filterMap, List.mem_filter,
    decide_eq_true_eq]
  constructor
  · rintro ⟨t, ⟨hts, hheld⟩, hf⟩
    cases hpr : pr t with
    | none => rw [hpr] at hf; exact absurd hf (by simp)
    | some p =>
      rw [hpr, Option.some_bind] at hf
      split_ifs at hf with hp hq
      · exact ⟨t, p, hts, hheld, hpr, hp, hq, (Option.some_inj.mp hf).symm⟩
  · rintro ⟨t, p, hts, hheld, hpr, hp, hq, rfl⟩
    refine ⟨t, ⟨hts, hheld⟩, ?_⟩
    rw [hpr, Option.some_bind, if_pos hp, if_pos hq]

/-- The equal-weight dollar slot used for newly opened positions. -/
def positionSize (longs shorts : List String) (total_portfolio_value : ℚ) : ℚ :=
  total_portfolio_value / ((longs.dedup.length + shorts.dedup.length : ℕ) : ℚ)

/-- Full characterization of the orders emitted by
`calculate_rebalance_orders`: an order is emitted exactly when it closes a
held long that left the target longs, buys back a held short that left the
target shorts, opens a priced, positively-sized, not-currently-held target
long, or opens such a target short (with action string `'SELL'`). -/
theorem mem_calculate_rebalance_orders {longs shorts : List String}
    {pos : List (String × Int)} {V : ℚ} {pr : String → Option ℚ}
    {o : RebalanceOrder} :
    o ∈ calculate_rebalance_orders longs shorts pos V pr ↔
      (∃ t q, (t, q) ∈ pos ∧ 0 < q ∧ t ∉ longs ∧
        o = { action := "SELL", ticker := t, quantity := q }) ∨
      (∃ t q, (t, q) ∈ pos ∧ q < 0 ∧ t ∉ shorts ∧
        o = { action := "BUY", ticker := t, quantity := |q| }) ∨
      (∃ t p, t ∈ longs ∧ t ∉ pos.map Prod.fst ∧ pr t = some p ∧ 0 < p ∧
        0 < ⌊positionSize longs shorts V / p⌋ ∧
        o = { action := "BUY", ticker := t,
              quantity := ⌊positionSize longs shorts V / p⌋ }) ∨
      (∃ t p, t ∈ shorts ∧ t ∉ pos.map Prod.fst ∧ pr t = some p ∧ 0 < p ∧
        0 < ⌊positionSize longs shorts V / p⌋ ∧
        o = { action := "SELL", ticker := t,
              quantity := ⌊positionSize longs shorts V / p⌋ }) := by
  unfold calculate_rebalance_orders
  by_cases hz : longs.dedup.length + shorts.dedup.length = 0
  · have hl : longs = [] := by
      rw [← List.dedup_eq_nil]; exact List.length_eq_zero.mp (by omega)
    have hs : shorts = [] := by
      rw [← List.dedup_eq_nil]; exact List.length_eq_zero.mp (by omega)
    rw [if_pos hz]
    subst hl; subst hs
    simp only [List.mem_append, mem_longsToSellOrders, mem_shortsToCoverOrders,
      List.dedup_nil, List.not_mem_nil, not_false_iff, and_true, false_and,
      and_false, exists_false, or_false]
  · rw [if_neg hz]
    simp only [List.mem_append, mem_longsToSellOrders, mem_shortsToCoverOrders,
      mem_newLongOrders, mem_newShortOrders, List.mem_dedup, positionSize,
      or_assoc]

theorem mem_targetQuantityBook {longs shorts : List String} {V : ℚ}
    {pr : String → Option ℚ} {t : String} {q : ℤ} :
    (t, q) ∈ targetQuantityBook longs shorts V pr ↔
      (∃ p, t ∈ longs ∧ pr t = some p ∧ 0 < p ∧
        0 < ⌊positionSize longs shorts V / p⌋ ∧
        q = ⌊positionSize longs shorts V / p⌋) ∨
      (∃ p, t ∈ shorts ∧ pr t = some p ∧ 0 < p ∧
        0 < ⌊positionSize longs shorts V / p⌋ ∧
        q = -⌊positionSize longs shorts V / p⌋) := by
  simp only [targetQuantityBook, positionSize, List.mem_append,
    List.mem_filterMap, List.mem_dedup]
  constructor
  · rintro (⟨u, hu, hf⟩ | ⟨u, hu, hf⟩) <;>
    · cases hpr : pr u with
      | none => rw [hpr] at hf; exact absurd hf (by simp)
      | some p =>
        rw [hpr, Option.some_bind] at hf
        split_ifs at hf with hp hfl
        · obtain ⟨h1, h2⟩ := Prod.mk.injEq .. ▸ Option.some_inj.mp hf
          subst h1
          first
          | exact Or.inl ⟨p, hu, hpr, hp, hfl, h2.symm⟩
          | exact Or.inr ⟨p, hu, hpr, hp, hfl, h2.symm⟩
  · rintro (⟨p, hu, hpr, hp, hfl, rfl⟩ | ⟨p, hu, hpr, hp, hfl, rfl⟩)
    · refine Or.inl ⟨t, hu, ?_⟩
      rw [hpr, Option.some_bind, if_pos hp, if_pos hfl]
    · refine Or.inr ⟨t, hu, ?_⟩
      rw [hpr, Option.some_bind, if_pos hp, if_pos hfl]

/-- C1 (idempotence): when the Position Book holds exactly the target
quantities the calculator would size (for every ticker with an available
positive price), a further run of `calculate_rebalance_orders` with the same
target, prices and resulting portfolio value produces no orders.  Simulated
fills at the valuation prices preserve total portfolio value, so the
resulting portfolio value equals the original `V`. -/
theorem rebalance_idempotent (longs shorts : List String) (V : ℚ)
    (pr : String → Option ℚ) (hdisj : longs.Disjoint shorts) :
    calculate_rebalance_orders longs shorts
      (targetQuantityBook longs shorts V pr) V pr = [] := by
  rw [List.eq_nil_iff_forall_not_mem]
  intro o ho
  rw [mem_calculate_rebalance_orders] at ho
  rcases ho with ⟨t, q, htq, hq, htl, -⟩ | ⟨t, q, htq, hq, hts, -⟩ |
    ⟨t, p, htl, hheld, hpr, hp, hfl, -⟩ | ⟨t, p, hts, hheld, hpr, hp, hfl, -⟩
  · rw [mem_targetQuantityBook] at htq
    rcases htq with ⟨p, hl, -⟩ | ⟨p, -, -, -, hfl, hqe⟩
    · exact htl hl
    · omega
  · rw [mem_targetQuantityBook] at htq
    rcases htq with ⟨p, -, -, -, hfl, hqe⟩ | ⟨p, hs, -⟩
    · omega
    · exact hts hs
  · refine hheld (List.mem_map.mpr ⟨(t, ⌊positionSize longs shorts V / p⌋), ?_, rfl⟩)
    exact mem_targetQuantityBook.mpr (Or.inl ⟨p, htl, hpr, hp, hfl, rfl⟩)
  · refine hheld (List.mem_map.mpr ⟨(t, -⌊positionSize longs shorts V / p⌋), ?_, rfl⟩)
    exact mem_targetQuantityBook.mpr (Or.inr ⟨p, hts, hpr, hp, hfl, rfl⟩)

/-- Price mapping used to instantiate the idempotence theorem. -/
def idempotenceWitnessPrices : String → Option ℚ := fun t =>
  if t = "A" then some 10 else if t = "B" then some 20 else none

theorem rebalance_idempotent_witness :
    (["A"] : List String).Disjoint ["B"] ∧
    calculate_rebalance_orders ["A"] ["B"]
      (targetQuantityBook ["A"] ["B"] 100 idempotenceWitnessPrices)
      100 idempotenceWitnessPrices = [] :=
  ⟨by simp, rebalance_idempotent ["A"] ["B"] 100 idempotenceWitnessPrices (by simp)⟩

/-- Price mapping of the order-diffing scenario: `{AAPL: 150, MSFT: 300}`. -/
def orderDiffScenarioPrices : String → Option ℚ := fun t =>
  if t = "AAPL" then some 150 else if t = "MSFT" then some 300 else none

/-- C2 (amended): the calculator emits exactly (i) full-quantity SELL orders
for held longs that left the target longs, (ii) BUY orders of `|q|` for held
shorts that left the target shorts, (iii) BUY orders of
`⌊positionSize / price⌋` for unheld target longs with a positive price and
positive floored size, and (iv) SELL orders of the same size for unheld
target shorts; held tickers still in the target are never resized.  The
order-diffing scenario — current `{AAPL: 10}`, target longs `[MSFT]`, value
1500, prices `{AAPL: 150, MSFT: 300}` — yields exactly `SELL AAPL 10` and
`BUY MSFT 5`. -/
theorem rebalance_order_semantics :
    (∀ (longs shorts : List String) (pos : List (String × Int)) (V : ℚ)
        (pr : String → Option ℚ) (o : RebalanceOrder),
      o ∈ calculate_rebalance_orders longs shorts pos V pr ↔
        (∃ t q, (t, q) ∈ pos ∧ 0 < q ∧ t ∉ longs ∧
          o = { action := "SELL", ticker := t, quantity := q }) ∨
        (∃ t q, (t, q) ∈ pos ∧ q < 0 ∧ t ∉ shorts ∧
          o = { action := "BUY", ticker := t, quantity := |q| }) ∨
        (∃ t p, t ∈ longs ∧ t ∉ pos.map Prod.fst ∧ pr t = some p ∧ 0 < p ∧
          0 < ⌊positionSize longs shorts V / p⌋ ∧
          o = { action := "BUY", ticker := t,
                quantity := ⌊positionSize longs shorts V / p⌋ }) ∨
        (∃ t p, t ∈ shorts ∧ t ∉ pos.map Prod.fst ∧ pr t = some p ∧ 0 < p ∧
          0 < ⌊positionSize longs shorts V / p⌋ ∧
          o = { action := "SELL", ticker := t,
                quantity := ⌊positionSize longs shorts V / p⌋ })) ∧
    calculate_rebalance_orders ["MSFT"] [] [("AAPL", 10)] 1500
        orderDiffScenarioPrices =
      [{ action := "SELL", ticker := "AAPL", quantity := 10 },
       { action := "BUY", ticker := "MSFT", quantity := 5 }] := by
  constructor
  · intro longs shorts pos V pr o
    exact mem_calculate_rebalance_orders
  · simp [calculate_rebalance_orders, longsToSellOrders, shortsToCoverOrders,
      newLongOrders, newShortOrders, orderDiffScenarioPrices,
      List.filterMap_cons]
    norm_num

/-- Price mapping refuting the spec's diff semantics: `{AAPL: 150}`. -/
def diffCexPrices : String → Option ℚ := fun t =>
  if t = "AAPL" then some 150 else none

/-- C2 (counterexample): with current positions `{AAPL: 10}`, target longs
`[AAPL]` and portfolio value 2250 at price 150, the spec's diff semantics
demands a BUY of `|15 - 10| = 5` shares of AAPL, but the code emits no order
at all: a held ticker that stays in the target is never resized. -/
theorem rebalance_orders_not_diff_semantics :
    ¬ specDiffRequirement ["AAPL"] [] [("AAPL", 10)] 2250 diffCexPrices
        (calculate_rebalance_orders ["AAPL"] [] [("AAPL", 10)] 2250
          diffCexPrices) := by
  intro h
  have hmem : "AAPL" ∈
      List.map Prod.fst [("AAPL", (10 : ℤ))] ++ ["AAPL"] ++ [] := by simp
  obtain ⟨-, h2⟩ := h "AAPL" hmem
  have hcalc : calculate_rebalance_orders ["AAPL"] [] [("AAPL", 10)] 2250
      diffCexPrices = [] := by
    simp [calculate_rebalance_orders, longsToSellOrders, shortsToCoverOrders,
      newLongOrders, newShortOrders]
  have htq : specDiffTargetQty ["AAPL"] [] 2250 diffCexPrices "AAPL" = 15 := by
    simp [specDiffTargetQty, diffCexPrices]
    norm_num
  have hcur : (dictGet [("AAPL", (10 : ℤ))] "AAPL").getD 0 = 10 := by
    simp [dictGet]
  rw [hcalc, htq, hcur] at h2
  obtain ⟨o, ho, -⟩ := h2 (by decide)
  exact absurd ho (List.not_mem_nil o)

/-- C7 (amended): a ticker with no available positive price receives no
position-opening order — if it is not currently held, no order of any kind
mentions it — and any order that does mention it is a full close of an
existing position that left the target (full-quantity SELL of a held long
not in the target longs, or BUY of the absolute quantity of a held short not
in the target shorts); positions that remain in the target are untouched. -/
theorem missing_price_policy (longs shorts : List String)
    (pos : List (String × Int)) (V : ℚ) (pr : String → Option ℚ) (t : String)
    (hp : ∀ p, pr t = some p → p ≤ 0) :
    (t ∉ pos.map Prod.fst →
      ∀ o ∈ calculate_rebalance_orders longs shorts pos V pr, o.ticker ≠ t) ∧
    (∀ o ∈ calculate_rebalance_orders longs shorts pos V pr, o.ticker = t →
      ∃ q, (t, q) ∈ pos ∧
        ((0 < q ∧ t ∉ longs ∧
            o = { action := "SELL", ticker := t, quantity := q }) ∨
         (q < 0 ∧ t ∉ shorts ∧
            o = { action := "BUY", ticker := t, quantity := |q| }))) := by
  constructor
  · intro hheld o ho heq
    rw [mem_calculate_rebalance_orders] at ho
    rcases ho with ⟨u, q, hmem, -, -, rfl⟩ | ⟨u, q, hmem, -, -, rfl⟩ |
      ⟨u, p, -, -, hpr, hpos, -, rfl⟩ | ⟨u, p, -, -, hpr, hpos, -, rfl⟩
    · exact hheld (heq ▸ List.mem_map.mpr ⟨(u, q), hmem, rfl⟩)
    · exact hheld (heq ▸ List.mem_map.mpr ⟨(u, q), hmem, rfl⟩)
    · exact absurd (hp p (heq ▸ hpr)) (not_le.mpr hpos)
    · exact absurd (hp p (heq ▸ hpr)) (not_le.mpr hpos)
  · intro o ho heq
    rw [mem_calculate_rebalance_orders] at ho
    rcases ho with ⟨u, q, hmem, hq, hl, rfl⟩ | ⟨u, q, hmem, hq, hs, rfl⟩ |
      ⟨u, p, -, -, hpr, hpos, -, rfl⟩ | ⟨u, p, -, -, hpr, hpos, -, rfl⟩
    · cases heq
      exact ⟨q, hmem, Or.inl ⟨hq, hl, rfl⟩⟩
    · cases heq
      exact ⟨q, hmem, Or.inr ⟨hq, hs, rfl⟩⟩
    · exact absurd (hp p (heq ▸ hpr)) (not_le.mpr hpos)
    · exact absurd (hp p (heq ▸ hpr)) (not_le.mpr hpos)

/-- A price mapping with no price for any ticker. -/
def noPrices : String → Option ℚ := fun _ => none

theorem missing_price_policy_witness :
    (∀ p : ℚ, noPrices "X" = some p → p ≤ 0) ∧
    (("X" ∉ ([("Y", 3)] : List (String × Int)).map Prod.fst →
      ∀ o ∈ calculate_rebalance_orders ["X"] [] [("Y", 3)] 0 noPrices,
        o.ticker ≠ "X") ∧
    (∀ o ∈ calculate_rebalance_orders ["X"] [] [("Y", 3)] 0 noPrices,
      o.ticker = "X" →
      ∃ q, ("X", q) ∈ ([("Y", 3)] : List (String × Int)) ∧
        ((0 < q ∧ "X" ∉ ["X"] ∧
            o = { action := "SELL", ticker := "X", quantity := q }) ∨
         (q < 0 ∧ "X" ∉ ([] : List String) ∧
            o = { action := "BUY", ticker := "X", quantity := |q| })))) :=
  ⟨fun p h => by simp [noPrices] at h,
   missing_price_policy ["X"] [] [("Y", 3)] 0 noPrices "X"
     (fun p h => by simp [noPrices] at h)⟩

/-- C7 (counterexample): ticker `X` has no live price, yet the calculator
emits a SELL order for the existing 5-share position in `X` because `X` is
no longer in the target — the existing position is not left untouched. -/
theorem missing_price_counterexample :
    noPrices "X" = none ∧
    ¬ (∀ o ∈ calculate_rebalance_orders [] [] [("X", 5)] 0 noPrices,
        o.ticker ≠ "X") := by
  refine ⟨rfl, ?_⟩
  intro h
  have hcalc : calculate_rebalance_orders [] [] [("X", 5)] 0 noPrices =
      [{ action := "SELL", ticker := "X", quantity := 5 }] := by
    simp [calculate_rebalance_orders, longsToSellOrders, shortsToCoverOrders]
  exact h { action := "SELL", ticker := "X", quantity := 5 }
    (by rw [hcalc]; exact List.mem_singleton_self _) rfl

/-- C10: every order emitted by `calculate_rebalance_orders` carries action
`'BUY'` or `'SELL'` and a strictly positive quantity; consequently the
`'SSHORT'` branch of the simulated-fill loop is unreachable on such orders —
applying the loop body to any of them agrees with the variant from which the
`'SSHORT'` branch has been removed. -/
theorem calculator_orders_buy_or_sell (longs shorts : List String)
    (pos : List (String × Int)) (V : ℚ) (pr : String → Option ℚ)
    (o : RebalanceOrder)
    (ho : o ∈ calculate_rebalance_orders longs shorts pos V pr) :
    (o.action = "BUY" ∨ o.action = "SELL") ∧ 0 < o.quantity ∧
    ∀ (prices : String → Option ℚ) (st : SimulatedPortfolio),
      applyOrder prices st o = applyOrderNoSshortBranch prices st o := by
  rw [mem_calculate_rebalance_orders] at ho
  have hbs : (o.action = "BUY" ∨ o.action = "SELL") ∧ 0 < o.quantity := by
    rcases ho with ⟨t, q, -, hq, -, rfl⟩ | ⟨t, q, -, hq, -, rfl⟩ |
      ⟨t, p, -, -, -, -, hq, rfl⟩ | ⟨t, p, -, -, -, -, hq, rfl⟩
    · exact ⟨Or.inr rfl, hq⟩
    · exact ⟨Or.inl rfl, abs_pos.mpr (ne_of_lt hq)⟩
    · exact ⟨Or.inl rfl, hq⟩
    · exact ⟨Or.inr rfl, hq⟩
  refine ⟨hbs.1, hbs.2, ?_⟩
  intro prices st
  unfold applyOrder applyOrderNoSshortBranch
  rcases hbs.1 with ha | ha <;> simp [ha]

theorem calculator_orders_buy_or_sell_witness :
    ({ action := "SELL", ticker := "X", quantity := 5 } : RebalanceOrder) ∈
      calculate_rebalance_orders [] [] [("X", 5)] 0 noPrices ∧
    ((({ action := "SELL", ticker := "X", quantity := 5 } :
        RebalanceOrder).action = "BUY" ∨
      ({ action := "SELL", ticker := "X", quantity := 5 } :
        RebalanceOrder).action = "SELL") ∧
      0 < ({ action := "SELL", ticker := "X", quantity := 5 } :
        RebalanceOrder).quantity ∧
      ∀ (prices : String → Option ℚ) (st : SimulatedPortfolio),
        applyOrder prices st { action := "SELL", ticker := "X", quantity := 5 } =
        applyOrderNoSshortBranch prices st
          { action := "SELL", ticker := "X", quantity := 5 }) := by
  have hmem : ({ action := "SELL", ticker := "X", quantity := 5 } :
      RebalanceOrder) ∈ calculate_rebalance_orders [] [] [("X", 5)] 0 noPrices := by
    simp [calculate_rebalance_orders, longsToSellOrders, shortsToCoverOrders]
  exact ⟨hmem, calculator_orders_buy_or_sell [] [] [("X", 5)] 0 noPrices _ hmem⟩

/-- C4: whenever the survivor count is at least twice the cutoff size, the
long bucket (top of the rank-sorted report) and the short bucket (bottom of
the rank-sorted report) share no ticker. -/
theorem longs_shorts_disjoint (report : List (String × ℚ)) (c : ℚ)
    (hnd : (report.map Prod.fst).Nodup)
    (hsz : 2 * (cutoffN report.length c).toNat ≤ report.length) :
    (generate_target_portfolio report c).1.Disjoint
      (generate_target_portfolio report c).2 := by
  unfold generate_target_portfolio
  have hperm : (report.insertionSort (fun a b => b.2 ≤ a.2)).Perm report :=
    List.perm_insertionSort _ _
  have hlen : (report.insertionSort (fun a b => b.2 ≤ a.2)).length =
      report.length := hperm.length_eq
  have hnd' : ((report.insertionSort (fun a b => b.2 ≤ a.2)).map
      Prod.fst).Nodup := ((hperm.map Prod.fst).nodup_iff).mpr hnd
  refine List.disjoint_take_drop hnd' ?_
  have hmlen : ((report.insertionSort (fun a b => b.2 ≤ a.2)).map
      Prod.fst).length = report.length := by
    rw [List.length_map, hlen]
  rw [hlen, hmlen]
  omega

theorem longs_shorts_disjoint_witness :
    ((([("A", (5 : ℚ)), ("B", 1), ("C", 3)]).map Prod.fst).Nodup ∧
      2 * (cutoffN ([("A", (5 : ℚ)), ("B", 1), ("C", 3)]).length
        (34/100)).toNat ≤ ([("A", (5 : ℚ)), ("B", 1), ("C", 3)]).length) ∧
    (generate_target_portfolio [("A", 5), ("B", 1), ("C", 3)] (34/100)).1.Disjoint
      (generate_target_portfolio [("A", 5), ("B", 1), ("C", 3)] (34/100)).2 := by
  have h1 : (([("A", (5 : ℚ)), ("B", 1), ("C", 3)]).map Prod.fst).Nodup := by
    simp
  have h2 : 2 * (cutoffN ([("A", (5 : ℚ)), ("B", 1), ("C", 3)]).length
      (34/100)).toNat ≤ ([("A", (5 : ℚ)), ("B", 1), ("C", 3)]).length := by
    norm_num [cutoffN, pyInt]
  exact ⟨⟨h1, h2⟩, longs_shorts_disjoint _ _ h1 h2⟩

/-- C5: for a non-empty report the bucket size is
`max 1 ⌊survivors × cutoff⌋`, and an empty report yields empty long and
short buckets. -/
theorem cutoff_sizing :
    (∀ (N : ℕ) (c : ℚ), 0 < N → 0 < c → c < 1 →
      cutoffN N c = max 1 ⌊(N : ℚ) * c⌋) ∧
    (∀ c : ℚ, generate_target_portfolio [] c = ([], [])) := by
  constructor
  · intro N c hN hc hc1
    have hnn : (0 : ℚ) ≤ (N : ℚ) * c := by positivity
    unfold cutoffN pyInt
    rw [if_neg (not_lt.mpr hnn)]
    have hfl : 0 ≤ ⌊(N : ℚ) * c⌋ := Int.floor_nonneg.mpr hnn
    by_cases h0 : ⌊(N : ℚ) * c⌋ = 0
    · rw [if_pos ⟨h0, hN⟩, h0]
      rfl
    · rw [if_neg (by tauto)]
      omega
  · intro c
    unfold generate_target_portfolio cutoffN pyInt
    simp

theorem cutoff_sizing_witness :
    (0 < 5 ∧ 0 < (3/10 : ℚ) ∧ (3/10 : ℚ) < 1) ∧
    cutoffN 5 (3/10) = max 1 ⌊(5 : ℚ) * (3/10)⌋ :=
  ⟨⟨by norm_num, by norm_num, by norm_num⟩,
   cutoff_sizing.1 5 (3/10) (by norm_num) (by norm_num) (by norm_num)⟩

/-! ### Momentum formula lemmas -/

theorem length_pct_change (periods : ℤ) (s : List ℚ) :
    (pct_change periods s).length = s.length := by
  simp [pct_change]

theorem length_shiftForward (g : ℕ) (s : List (Option ℚ)) :
    (shiftForward g s).length = s.length := by
  simp [shiftForward]

theorem getElem?_pct_change (periods : ℤ) (s : List ℚ) (i : ℕ)
    (hi : i < s.length) :
    (pct_change periods s)[i]? =
      some (if 0 ≤ (i : ℤ) - periods ∧ (i : ℤ) - periods < (s.length : ℤ) then
        some (s.getD i 0 / s.getD ((i : ℤ) - periods).toNat 0 - 1)
      else none) := by
  simp only [pct_change, List.getElem?_map, List.getElem?_range hi]
  rfl

theorem getElem?_shiftForward (g : ℕ) (s : List (Option ℚ)) (i : ℕ)
    (hi : i < s.length) :
    (shiftForward g s)[i]? =
      some (if g ≤ i then s.getD (i - g) none else none) := by
  simp only [shiftForward, List.getElem?_map, List.getElem?_range hi]
  rfl

/-- The most recent momentum value on a sufficiently long series: the
percentage change over `L - G` periods ending `G` periods before the last
observation. -/
theorem momentum_latest_eq (L G : ℕ) (s : List ℚ) (hGL : G < L)
    (hn : L + 1 ≤ s.length) :
    momentum_latest L G s =
      some (s.getD (s.length - 1 - G) 0 / s.getD (s.length - 1 - L) 0 - 1) := by
  have hlen1 : (pct_change ((L : ℤ) - (G : ℤ)) s).length = s.length :=
    length_pct_change _ _
  have hlen2 : (shiftForward G (pct_change ((L : ℤ) - (G : ℤ)) s)).length =
      s.length := by rw [length_shiftForward, hlen1]
  have hpos : 0 < s.length := by omega
  have hi1 : s.length - 1 < s.length := by omega
  unfold momentum_latest
  rw [List.getLast?_eq_getElem?, hlen2,
    getElem?_shiftForward _ _ _ (by omega : s.length - 1 <
      (pct_change ((L : ℤ) - (G : ℤ)) s).length)]
  rw [if_pos (by omega : G ≤ s.length - 1)]
  rw [List.getD_eq_getElem?_getD,
    getElem?_pct_change _ _ _ (by omega : s.length - 1 - G < s.length)]
  have hcond : 0 ≤ ((s.length - 1 - G : ℕ) : ℤ) - ((L : ℤ) - (G : ℤ)) ∧
      ((s.length - 1 - G : ℕ) : ℤ) - ((L : ℤ) - (G : ℤ)) < (s.length : ℤ) := by
    constructor <;> [skip; skip] <;> · push_cast; omega
  rw [if_pos hcond]
  have hidx : (((s.length - 1 - G : ℕ) : ℤ) - ((L : ℤ) - (G : ℤ))).toNat =
      s.length - 1 - L := by omega
  rw [hidx]
  simp [Option.join]

/-- A series too short for the window yields a missing momentum value. -/
theorem momentum_latest_insufficient (L G : ℕ) (s : List ℚ) (hGL : G < L)
    (hn : s.length < L + 1) :
    momentum_latest L G s = none := by
  have hlen1 : (pct_change ((L : ℤ) - (G : ℤ)) s).length = s.length :=
    length_pct_change _ _
  have hlen2 : (shiftForward G (pct_change ((L : ℤ) - (G : ℤ)) s)).length =
      s.length := by rw [length_shiftForward, hlen1]
  rcases Nat.eq_zero_or_pos s.length with hz | hpos
  · unfold momentum_latest
    rw [List.getLast?_eq_getElem?, hlen2, hz]
    have : (shiftForward G (pct_change ((L : ℤ) - (G : ℤ)) s)).length = 0 := by
      rw [hlen2, hz]
    rw [List.getElem?_eq_none (by omega)]
    rfl
  · unfold momentum_latest
    rw [List.getLast?_eq_getElem?, hlen2,
      getElem?_shiftForward _ _ _ (by omega : s.length - 1 <
        (pct_change ((L : ℤ) - (G : ℤ)) s).length)]
    by_cases hG : G ≤ s.length - 1
    · rw [if_pos hG]
      rw [List.getD_eq_getElem?_getD,
        getElem?_pct_change _ _ _ (by omega : s.length - 1 - G < s.length)]
      rw [if_neg (by push_cast; omega)]
      simp [Option.join]
    · rw [if_neg hG]
      simp [Option.join]

/-- With the lag equal to the lookback (`L - G = 0`) the momentum silently
evaluates to zero on every series with at least `L + 1` nonzero observations
— no error is raised. -/
theorem momentum_latest_lag_eq_lookback (L : ℕ) (s : List ℚ)
    (hn : L + 1 ≤ s.length) (hnz : ∀ x ∈ s, x ≠ 0) :
    momentum_latest L L s = some 0 := by
  have hlen1 : (pct_change ((L : ℤ) - (L : ℤ)) s).length = s.length :=
    length_pct_change _ _
  have hlen2 : (shiftForward L (pct_change ((L : ℤ) - (L : ℤ)) s)).length =
      s.length := by rw [length_shiftForward, hlen1]
  unfold momentum_latest
  rw [List.getLast?_eq_getElem?, hlen2,
    getElem?_shiftForward _ _ _ (by omega : s.length - 1 <
      (pct_change ((L : ℤ) - (L : ℤ)) s).length)]
  rw [if_pos (by omega : L ≤ s.length - 1)]
  rw [List.getD_eq_getElem?_getD,
    getElem?_pct_change _ _ _ (by omega : s.length - 1 - L < s.length)]
  rw [if_pos (by constructor <;> · push_cast; omega)]
  have hidx : (((s.length - 1 - L : ℕ) : ℤ) - ((L : ℤ) - (L : ℤ))).toNat =
      s.length - 1 - L := by omega
  rw [hidx]
  have hmem : s.getD (s.length - 1 - L) 0 ∈ s := by
    rw [List.getD_eq_getElem?_getD,
      List.getElem?_eq_getElem (by omega : s.length - 1 - L < s.length)]
    exact List.getElem_mem _
  rw [div_self (hnz _ hmem)]
  simp [Option.join]

/-- A monthly price series with thirteen observations, prices `1,…,13`. -/
def monthlySeries13 : List ℚ := [1, 2, 3, 4, 5, 6, 7, 8, 9, 10, 11, 12, 13]

/-- C3 (amended): on a sufficiently long resampled series the single most
recent momentum value equals the percentage change over `L - G` periods
ending `G` periods before the most recent observation —
`price[n-1-G] / price[n-1-L] - 1`; with `L = 12`, `G = 2` this is
`price[-3] / price[-13] - 1` (not `price[-2] / price[-12] - 1`); a series
shorter than `L + 1` yields a missing value, and tickers with a missing
value are dropped from the momentum table. -/
theorem momentum_formula :
    (∀ (L G : ℕ) (s : List ℚ), G < L → L + 1 ≤ s.length →
      momentum_latest L G s =
        some (s.getD (s.length - 1 - G) 0 / s.getD (s.length - 1 - L) 0 - 1)) ∧
    (∀ s : List ℚ, 13 ≤ s.length →
      momentum_latest 12 2 s =
        some (s.getD (s.length - 3) 0 / s.getD (s.length - 13) 0 - 1)) ∧
    (∀ (L G : ℕ) (s : List ℚ), G < L → s.length < L + 1 →
      momentum_latest L G s = none) ∧
    (∀ (L G : ℕ) (data : List (String × List ℚ)) (t : String) (m : ℚ),
      (t, m) ∈ momentumTable L G data ↔
        ∃ series, (t, series) ∈ data ∧
          momentum_latest L G series = some m) := by
  refine ⟨momentum_latest_eq, ?_, momentum_latest_insufficient, ?_⟩
  · intro s hs
    rw [momentum_latest_eq 12 2 s (by norm_num) (by omega)]
    rw [show s.length - 1 - 2 = s.length - 3 by omega,
      show s.length - 1 - 12 = s.length - 13 by omega]
  · intro L G data t m
    simp only [momentumTable, List.mem_filterMap, Option.map_eq_some']
    constructor
    · rintro ⟨⟨u, series⟩, hmem, v, hv, heq⟩
      obtain ⟨h1, h2⟩ := Prod.mk.injEq .. ▸ heq
      subst h1
      subst h2
      exact ⟨series, hmem, hv⟩
    · rintro ⟨series, hmem, hv⟩
      exact ⟨(t, series), hmem, m, hv, rfl⟩

theorem momentum_formula_witness :
    (2 < 12 ∧ 12 + 1 ≤ monthlySeries13.length) ∧
    momentum_latest 12 2 monthlySeries13 =
      some (monthlySeries13.getD (monthlySeries13.length - 1 - 2) 0 /
        monthlySeries13.getD (monthlySeries13.length - 1 - 12) 0 - 1) :=
  ⟨⟨by norm_num, by simp [monthlySeries13]⟩,
   momentum_formula.1 12 2 monthlySeries13 (by norm_num)
     (by simp [monthlySeries13])⟩

/-- C3 (counterexample): on the monthly series `1,…,13` the code's momentum
is `price[-3]/price[-13] - 1 = 11/1 - 1 = 10`, while the claimed
`price[-2]/price[-12] - 1 = 12/2 - 1 = 5`; the difference 5 far exceeds the
tolerance `1e-9`. -/
theorem momentum_formula_counterexample :
    momentum_latest 12 2 monthlySeries13 = some 10 ∧
    monthlySeries13.getD (monthlySeries13.length - 2) 0 /
      monthlySeries13.getD (monthlySeries13.length - 12) 0 - 1 = 5 ∧
    ¬ |(10 : ℚ) - 5| ≤ 1 / 1000000000 := by
  refine ⟨?_, by norm_num [monthlySeries13], by norm_num⟩
  rw [momentum_latest_eq 12 2 monthlySeries13 (by norm_num)
    (by simp [monthlySeries13])]
  norm_num [monthlySeries13]

/-- C9 (the code contradicts the fail-fast requirement): with the lag equal
to the lookback the momentum computation raises nothing and silently
evaluates to zero — on every series of at least `L + 1` nonzero prices the
latest momentum is `some 0`, and on the concrete series `1,…,13` with
lookback 12 and lag 12 it is `some 0`. -/
theorem momentum_lag_config_silently_zero :
    (∀ (L : ℕ) (s : List ℚ), L + 1 ≤ s.length → (∀ x ∈ s, x ≠ 0) →
      momentum_latest L L s = some 0) ∧
    momentum_latest 12 12 monthlySeries13 = some 0 := by
  refine ⟨momentum_latest_lag_eq_lookback, ?_⟩
  exact momentum_latest_lag_eq_lookback 12 monthlySeries13
    (by simp [monthlySeries13]) (by norm_num [monthlySeries13])

theorem momentum_lag_config_silently_zero_witness :
    (12 + 1 ≤ monthlySeries13.length ∧ (∀ x ∈ monthlySeries13, x ≠ 0)) ∧
    momentum_latest 12 12 monthlySeries13 = some 0 :=
  ⟨⟨by simp [monthlySeries13], by norm_num [monthlySeries13]⟩,
   momentum_lag_config_silently_zero.1 12 monthlySeries13
     (by simp [monthlySeries13]) (by norm_num [monthlySeries13])⟩

/-! ### Universe filter ordering -/

/-- C6 (amended): the sector filter and the liquidity filter commute when
the liquidity cutoff is a fixed threshold; order-dependence of the code's
filters stems solely from the quantile being recomputed on the currently
surviving population. -/
theorem universe_filters_commute_fixed_cutoff
    (entries : List UniverseEntry) (excludedSectors : List String) (cutoff : ℚ) :
    filterSectors (filterLiquidityAt entries cutoff) excludedSectors =
      filterLiquidityAt (filterSectors entries excludedSectors) cutoff := by
  simp only [filterSectors, filterLiquidityAt, List.filter_filter]
  apply List.filter_congr
  intro e _
  simp only [Bool.and_comm, Bool.and_left_comm, Bool.and_assoc]

/-- C6 (counterexample): with market caps `{A: 10, B: 20, C: 30}`, sector
`S` for `A` and `T` for `B`, `C`, excluded sector `S` and liquidity
percentile `1/2`, liquidity-then-sector keeps `{B, C}` (cutoff 20) but
sector-then-liquidity keeps only `{C}` (cutoff 25 on the reduced
population). -/
theorem universe_filters_order_dependent :
    filterSectors (filterLiquidity
      [{ ticker := "A", sector := "S", marketCap := some 10 },
       { ticker := "B", sector := "T", marketCap := some 20 },
       { ticker := "C", sector := "T", marketCap := some 30 }] (1/2)) ["S"] ≠
    filterLiquidity (filterSectors
      [{ ticker := "A", sector := "S", marketCap := some 10 },
       { ticker := "B", sector := "T", marketCap := some 20 },
       { ticker := "C", sector := "T", marketCap := some 30 }] ["S"]) (1/2) := by
  have h1 : filterSectors (filterLiquidity
      [{ ticker := "A", sector := "S", marketCap := some 10 },
       { ticker := "B", sector := "T", marketCap := some 20 },
       { ticker := "C", sector := "T", marketCap := some 30 }] (1/2)) ["S"] =
      [{ ticker := "B", sector := "T", marketCap := some 20 },
       { ticker := "C", sector := "T", marketCap := some 30 }] := by
    norm_num [filterLiquidity, filterSectors, quantileLinear,
      List.insertionSort, List.orderedInsert]
    decide
  have h2 : filterLiquidity (filterSectors
      [{ ticker := "A", sector := "S", marketCap := some 10 },
       { ticker := "B", sector := "T", marketCap := some 20 },
       { ticker := "C", sector := "T", marketCap := some 30 }] ["S"]) (1/2) =
      [{ ticker := "C", sector := "T", marketCap := some 30 }] := by
    norm_num [filterLiquidity, filterSectors, quantileLinear,
      List.insertionSort, List.orderedInsert]
    decide
  rw [h1, h2]
  simp

/-! ### Simulated fill semantics -/

theorem find?_map_replace {l : List (String × Int)} {k t : String} {v : Int}
    (h : t ≠ k) :
    (l.map (fun p => if p.1 == k then (k, v) else p)).find?
        (fun p => p.1 == t) =
      l.find? (fun p => p.1 == t) := by
  induction l with
  | nil => rfl
  | cons hd tl ih =>
    by_cases hhd : (hd.1 == k) = true
    · have hk : hd.1 = k := by simpa using hhd
      simp only [List.map_cons, if_pos hhd, List.find?]
      have h1 : ((k, v).1 == t) = false := by simp [Ne.symm h]
      have h2 : (hd.1 == t) = false := by simp [hk, Ne.symm h]
      rw [h1, h2]
      exact ih
    · simp only [List.map_cons, if_neg hhd, List.find?]
      cases ht : (hd.1 == t) with
      | true => rfl
      | false => exact ih

theorem dictGet_dictSet_self (l : List (String × Int)) (k : String) (v : Int) :
    dictGet (dictSet l k v) k = some v := by
  unfold dictSet dictGet
  by_cases h : (l.any (fun p => p.1 == k)) = true
  · rw [if_pos h]
    induction l with
    | nil => simp at h
    | cons hd tl ih =>
      by_cases hhd : (hd.1 == k) = true
      · simp [List.find?, hhd]
      · have htl : (tl.any (fun p => p.1 == k)) = true := by
          simp only [List.any_cons, Bool.or_eq_true] at h
          exact h.resolve_left hhd
        simp only [List.map_cons, if_neg hhd, List.find?]
        rw [show (hd.1 == k) = false by simpa using hhd]
        exact ih htl
  · rw [if_neg h]
    rw [List.find?_append]
    have hnone : l.find? (fun p => p.1 == k) = none := by
      rw [List.find?_eq_none]
      intro x hx hpx
      exact h (List.any_eq_true.mpr ⟨x, hx, hpx⟩)
    rw [hnone]
    simp [List.find?]

theorem dictGet_dictSet_ne (l : List (String × Int)) (k t : String) (v : Int)
    (h : t ≠ k) : dictGet (dictSet l k v) t = dictGet l t := by
  unfold dictSet dictGet
  by_cases hany : (l.any (fun p => p.1 == k)) = true
  · rw [if_pos hany, find?_map_replace h]
  · rw [if_neg hany, List.find?_append]
    have h1 : ([(k, v)].find? (fun p => p.1 == t)) = none := by
      simp only [List.find?]
      rw [show ((k, v).1 == t) = false by simpa using Ne.symm h]
    rw [h1]
    cases l.find? (fun p => p.1 == t) <;> rfl

theorem dictGet_dictDel_self (l : List (String × Int)) (k : String) :
    dictGet (dictDel l k) k = none := by
  unfold dictDel dictGet
  have : (l.filter (fun p => !(p.1 == k))).find? (fun p => p.1 == k) = none := by
    rw [List.find?_eq_none]
    intro x hx
    rw [List.mem_filter] at hx
    simpa using hx.2
  rw [this]
  rfl

theorem dictGet_dictDel_ne (l : List (String × Int)) (k t : String)
    (h : t ≠ k) : dictGet (dictDel l k) t = dictGet l t := by
  unfold dictDel dictGet
  induction l with
  | nil => rfl
  | cons hd tl ih =>
    by_cases hhd : (hd.1 == k) = true
    · have hk : hd.1 = k := by simpa using hhd
      rw [List.filter_cons_of_neg (by simp [hhd])]
      rw [show ((hd :: tl).find? (fun p => p.1 == t)) =
        tl.find? (fun p => p.1 == t) by
          simp [List.find?, show (hd.1 == t) = false by simp [hk, Ne.symm h]]]
      exact ih
    · rw [List.filter_cons_of_pos (by simp [hhd])]
      simp only [List.find?]
      cases ht : (hd.1 == t) with
      | true => rfl
      | false => exact ih

/-- C8: per-order simulated-fill semantics — an order with no execution
price is skipped entirely; BUY decreases cash by `quantity × price` and
increases the ticker's position by `quantity`; SELL and SSHORT increase cash
and decrease the position; a resulting quantity of exactly 0 removes the
ticker from the position mapping, and no other ticker is touched.  In the
concrete scenario, from cash 10000 and no positions, `BUY AAPL 10 @ 150`
yields cash 8500 and positions `{AAPL: 10}`, and then `SELL AAPL 10 @ 160`
yields cash 10100 with no AAPL entry. -/
theorem simulate_fill_semantics :
    (∀ (pr : String → Option ℚ) (st : SimulatedPortfolio) (o : RebalanceOrder),
      pr o.ticker = none → applyOrder pr st o = st) ∧
    (∀ (pr : String → Option ℚ) (st : SimulatedPortfolio) (o : RebalanceOrder)
        (p : ℚ), pr o.ticker = some p → o.action = "BUY" →
      (applyOrder pr st o).cash = st.cash - (o.quantity : ℚ) * p ∧
      dictGet (applyOrder pr st o).positions o.ticker =
        (if (dictGet st.positions o.ticker).getD 0 + o.quantity = 0 then none
         else some ((dictGet st.positions o.ticker).getD 0 + o.quantity)) ∧
      ∀ t, t ≠ o.ticker →
        dictGet (applyOrder pr st o).positions t = dictGet st.positions t) ∧
    (∀ (pr : String → Option ℚ) (st : SimulatedPortfolio) (o : RebalanceOrder)
        (p : ℚ), pr o.ticker = some p →
        (o.action = "SELL" ∨ o.action = "SSHORT") →
      (applyOrder pr st o).cash = st.cash + (o.quantity : ℚ) * p ∧
      dictGet (applyOrder pr st o).positions o.ticker =
        (if (dictGet st.positions o.ticker).getD 0 - o.quantity = 0 then none
         else some ((dictGet st.positions o.ticker).getD 0 - o.quantity)) ∧
      ∀ t, t ≠ o.ticker →
        dictGet (applyOrder pr st o).positions t = dictGet st.positions t) ∧
    (simulate_trades [{ action := "BUY", ticker := "AAPL", quantity := 10 }]
        (fun t => if t = "AAPL" then some 150 else none)
        { cash := 10000, positions := [] } =
      { cash := 8500, positions := [("AAPL", 10)] } ∧
     simulate_trades [{ action := "SELL", ticker := "AAPL", quantity := 10 }]
        (fun t => if t = "AAPL" then some 160 else none)
        { cash := 8500, positions := [("AAPL", 10)] } =
      { cash := 10100, positions := [] }) := by
  refine ⟨?_, ?_, ?_, ?_, ?_⟩
  · intro pr st o hnone
    unfold applyOrder
    rw [hnone]
    rfl
  · intro pr st o p hpr ha
    unfold applyOrder
    rw [hpr, Option.elim_some, ha]
    simp only [if_pos (show ("BUY" : String) = "BUY" from rfl), if_true,
      if_false]
    set q1 : ℤ := (dictGet st.positions o.ticker).getD 0 + o.quantity with hq1
    by_cases hz : q1 = 0
    · rw [if_pos (by rw [dictGet_dictSet_self, hz])]
      refine ⟨rfl, ?_, ?_⟩
      · rw [if_pos hz, dictGet_dictDel_self]
      · intro t ht
        rw [dictGet_dictDel_ne _ _ _ ht, dictGet_dictSet_ne _ _ _ _ ht]
    · rw [if_neg (by rw [dictGet_dictSet_self]; simpa using hz)]
      refine ⟨rfl, ?_, ?_⟩
      · rw [if_neg hz, dictGet_dictSet_self]
      · intro t ht
        rw [dictGet_dictSet_ne _ _ _ _ ht]
  · intro pr st o p hpr ha
    unfold applyOrder
    rw [hpr, Option.elim_some]
    rcases ha with h | h
    · rw [h]
      simp only [if_neg (show ¬ ("SELL" : String) = "BUY" by decide),
        if_pos (show ("SELL" : String) = "SELL" from rfl), if_true, if_false]
      set q1 : ℤ := (dictGet st.positions o.ticker).getD 0 - o.quantity with hq1
      by_cases hz : q1 = 0
      · rw [if_pos (by rw [dictGet_dictSet_self, hz])]
        refine ⟨rfl, ?_, ?_⟩
        · rw [if_pos hz, dictGet_dictDel_self]
        · intro t ht
          rw [dictGet_dictDel_ne _ _ _ ht, dictGet_dictSet_ne _ _ _ _ ht]
      · rw [if_neg (by rw [dictGet_dictSet_self]; simpa using hz)]
        refine ⟨rfl, ?_, ?_⟩
        · rw [if_neg hz, dictGet_dictSet_self]
        · intro t ht
          rw [dictGet_dictSet_ne _ _ _ _ ht]
    · rw [h]
      simp only [if_neg (show ¬ ("SSHORT" : String) = "BUY" by decide),
        if_neg (show ¬ ("SSHORT" : String) = "SELL" by decide),
        if_pos (show ("SSHORT" : String) = "SSHORT" from rfl), if_true,
        if_false]
      set q1 : ℤ := (dictGet st.positions o.ticker).getD 0 - o.quantity with hq1
      by_cases hz : q1 = 0
      · rw [if_pos (by rw [dictGet_dictSet_self, hz])]
        refine ⟨rfl, ?_, ?_⟩
        · rw [if_pos hz, dictGet_dictDel_self]
        · intro t ht
          rw [dictGet_dictDel_ne _ _ _ ht, dictGet_dictSet_ne _ _ _ _ ht]
      · rw [if_neg (by rw [dictGet_dictSet_self]; simpa using hz)]
        refine ⟨rfl, ?_, ?_⟩
        · rw [if_neg hz, dictGet_dictSet_self]
        · intro t ht
          rw [dictGet_dictSet_ne _ _ _ _ ht]
  · show simulate_trades _ _ _ = _
    simp [simulate_trades, applyOrder, dictSet, dictGet, dictDel]
    norm_num
  · show simulate_trades _ _ _ = _
    simp [simulate_trades, applyOrder, dictSet, dictGet, dictDel]
    norm_num

/-- Concrete inputs used to instantiate the simulated-fill semantics. -/
def fillWitnessPrices : String → Option ℚ := fun t =>
  if t = "AAPL" then some 150 else none

def fillWitnessOrder : RebalanceOrder :=
  { action := "BUY", ticker := "AAPL", quantity := 10 }

def fillWitnessStart : SimulatedPortfolio := { cash := 10000, positions := [] }

theorem simulate_fill_semantics_witness :
    fillWitnessPrices fillWitnessOrder.ticker = some 150 ∧
    fillWitnessOrder.action = "BUY" ∧
    ((applyOrder fillWitnessPrices fillWitnessStart fillWitnessOrder).cash =
      fillWitnessStart.cash - (fillWitnessOrder.quantity : ℚ) * 150 ∧
     dictGet (applyOrder fillWitnessPrices fillWitnessStart
         fillWitnessOrder).positions fillWitnessOrder.ticker =
       (if (dictGet fillWitnessStart.positions
            fillWitnessOrder.ticker).getD 0 + fillWitnessOrder.quantity = 0
        then none
        else some ((dictGet fillWitnessStart.positions
          fillWitnessOrder.ticker).getD 0 + fillWitnessOrder.quantity)) ∧
     ∀ t, t ≠ fillWitnessOrder.ticker →
       dictGet (applyOrder fillWitnessPrices fillWitnessStart
           fillWitnessOrder).positions t =
         dictGet fillWitnessStart.positions t) :=
  ⟨by simp [fillWitnessPrices, fillWitnessOrder], rfl,
   simulate_fill_semantics.2.1 fillWitnessPrices fillWitnessStart
     fillWitnessOrder 150 (by simp [fillWitnessPrices, fillWitnessOrder]) rfl⟩

end MomentumTrader
